import Mathlib

/-!
Verification development for the Hebrew Audio Siddur calendar-conditions
engine and rule-matching engine (`tefilla_rules.py`).

The Python source delegates civil↔Hebrew date conversion to the external
`pyluach` library, which the specification treats as an external Calendar
Conversion Service consumed through a narrow interface (month name,
day-of-month, weekday, civil conversion).  That service is modelled here by
the standard arithmetic Hebrew calendar (molad computation with the four
postponements), validated against the concrete civil/Hebrew date pairs
recorded in the repository's own test suite.  Everything else is a direct
translation of the Python source.
-/

namespace Siddur

/-! ### Civil (Gregorian) dates -/

/-- A civil (Gregorian) calendar date, as in Python's `datetime.date`. -/
structure GDate where
  year : Nat
  month : Nat
  day : Nat
deriving DecidableEq, Repr

/-- Gregorian leap-year test, exactly the formula used at
`tefilla_rules.py:306`: `(y % 4 == 0 and y % 100 != 0) or (y % 400 == 0)`. -/
def gregorianLeap (y : Nat) : Bool :=
  (y % 4 == 0 && y % 100 != 0) || y % 400 == 0

/-- Length of a Gregorian month. -/
def gregorianMonthLength (y m : Nat) : Nat :=
  if m == 2 then (if gregorianLeap y then 29 else 28)
  else if m == 4 || m == 6 || m == 9 || m == 11 then 30
  else 31

/-- Validity of a civil date (Python's `datetime.date` requires
`year >= 1`). -/
def validGDate (g : GDate) : Prop :=
  1 ≤ g.year ∧ 1 ≤ g.month ∧ g.month ≤ 12
    ∧ 1 ≤ g.day ∧ g.day ≤ gregorianMonthLength g.year g.month

instance (g : GDate) : Decidable (validGDate g) := by
  unfold validGDate; infer_instance

/-- Days in the months of year `y` strictly before month `m`. -/
def daysBeforeMonth (y : Nat) : Nat → Nat
  | 0 => 0
  | 1 => 0
  | m + 1 => daysBeforeMonth y m + gregorianMonthLength y m

/-- Rata Die fixed-day number of a civil date (days elapsed since the
epoch of Gregorian 1-01-01 = day 1).  Models `date.toordinal()`, the basis
of date comparison and `timedelta` arithmetic in the source. -/
def toRD (g : GDate) : Nat :=
  365 * (g.year - 1) + (g.year - 1) / 4 + (g.year - 1) / 400 - (g.year - 1) / 100
    + daysBeforeMonth g.year g.month + g.day

/-- The next civil date, modelling `date + timedelta(days=1)`. -/
def nextDate (g : GDate) : GDate :=
  if g.day < gregorianMonthLength g.year g.month then ⟨g.year, g.month, g.day + 1⟩
  else if g.month < 12 then ⟨g.year, g.month + 1, 1⟩
  else ⟨g.year + 1, 1, 1⟩

/-! ### The Hebrew calendar (modelled external conversion service)

Modelled from the spec: the Calendar Conversion Service (`pyluach`) is not
part of the repository; it is specified only through its interface
(`fromCivil(date) -> CalendarDate{monthName, day, weekdayIndex}`,
`toCivil`, `addDays`, month-length probing).  The definitions below are
the standard arithmetic Hebrew calendar, which is what that library
implements. -/

/-- Hebrew leap year: years 3,6,8,11,14,17,19 of the 19-year cycle. -/
def hebrewLeap (y : Nat) : Bool :=
  (7 * y + 1) % 19 < 7

/-- Months elapsed before Tishrei of Hebrew year `y` (months counted from
the calendar's epoch; 235 months per 19-year cycle). -/
def hebrewMonthsElapsed (y : Nat) : Nat :=
  235 * ((y - 1) / 19) + 12 * ((y - 1) % 19) + (7 * ((y - 1) % 19) + 1) / 19

/-- Day number (from the calendar's own epoch) of 1 Tishrei of year `y`:
the molad computation followed by the four postponement rules. -/
def roshHashanaDay (y : Nat) : Nat :=
  let me := hebrewMonthsElapsed y
  let pe := 204 + 793 * (me % 1080)
  let he := 5 + 12 * me + 793 * (me / 1080) + pe / 1080
  let cday := 1 + 29 * me + he / 24
  let cparts := 1080 * (he % 24) + pe % 1080
  let alt :=
    if cparts ≥ 19440
        || (cday % 7 == 2 && cparts ≥ 9924 && !hebrewLeap y)
        || (cday % 7 == 1 && cparts ≥ 16789 && hebrewLeap (y - 1)) then
      cday + 1
    else cday
  if alt % 7 == 0 || alt % 7 == 3 || alt % 7 == 5 then alt + 1 else alt

/-- Offset aligning the Hebrew epoch day count with Rata Die, calibrated
so that 1 Tishrei 5786 falls on civil 2025-09-23 (as the repository's test
suite records) and cross-checked on many other dates. -/
def hebrewEpochSub : Nat := 1373428

/-- Rata Die day of 1 Tishrei of Hebrew year `y`. -/
def hebrewNewYearRD (y : Nat) : Nat :=
  roshHashanaDay y - hebrewEpochSub

/-- Number of days in Hebrew year `y` (353/354/355 or 383/384/385). -/
def daysInHebrewYear (y : Nat) : Nat :=
  roshHashanaDay (y + 1) - roshHashanaDay y

/-- Cheshvan has 30 days in full years. -/
def longCheshvan (y : Nat) : Bool := daysInHebrewYear y % 10 == 5

/-- Kislev has 29 days in deficient years. -/
def shortKislev (y : Nat) : Bool := daysInHebrewYear y % 10 == 3

/-- Length of Hebrew month `m` (Nisan = 1 … Adar = 12, Adar 2 = 13) in
year `y`. -/
def hebrewMonthLength (y m : Nat) : Nat :=
  if m == 1 || m == 3 || m == 5 || m == 7 || m == 11 then 30
  else if m == 2 || m == 4 || m == 6 || m == 10 || m == 13 then 29
  else if m == 8 then (if longCheshvan y then 30 else 29)
  else if m == 9 then (if shortKislev y then 29 else 30)
  else if m == 12 then (if hebrewLeap y then 30 else 29)
  else 29

/-- The months of Hebrew year `y` in civil order (the year begins at
Tishrei = 7). -/
def monthsCivilOrder (y : Nat) : List Nat :=
  [7, 8, 9, 10, 11, 12] ++ (if hebrewLeap y then [13] else []) ++ [1, 2, 3, 4, 5, 6]

/-- A Hebrew calendar date (month numbered with Nisan = 1, Tishrei = 7). -/
structure HDate where
  year : Nat
  month : Nat
  day : Nat
deriving DecidableEq, Repr

/-- Rata Die day of a Hebrew date (`toCivil` of the conversion service). -/
def hebrewToRD (h : HDate) : Nat :=
  hebrewNewYearRD h.year
    + (((monthsCivilOrder h.year).takeWhile (fun m => m != h.month)).map
        (hebrewMonthLength h.year)).sum
    + h.day - 1

/-- Walk the civil-ordered month list converting a 0-based day-of-year to
(month, day-of-month). -/
def findMonthDay : List Nat → Nat → Nat → Nat × Nat
  | [], _, doy => (6, doy + 1)
  | m :: ms, y, doy =>
      if doy < hebrewMonthLength y m then (m, doy + 1)
      else findMonthDay ms y (doy - hebrewMonthLength y m)

/-- Hebrew date of a Rata Die day (`fromCivil` of the conversion
service): approximate the year, adjust, then locate the month. -/
def hebrewFromRD (rd : Nat) : HDate :=
  let approx := (rd + hebrewEpochSub) * 98496 / 35975351
  let y0 := if rd < hebrewNewYearRD approx then approx - 1 else approx
  let y1 := if rd < hebrewNewYearRD y0 then y0 - 1 else y0
  let y2 := if hebrewNewYearRD (y1 + 1) ≤ rd then y1 + 1 else y1
  let y := if hebrewNewYearRD (y2 + 1) ≤ rd then y2 + 1 else y2
  let md := findMonthDay (monthsCivilOrder y) y (rd - hebrewNewYearRD y)
  ⟨y, md.1, md.2⟩

/-- Transliterated month name, as the engine's lookup tables expect it.
Modelled from the spec: holiday/fast-day lookups "must key off month
name", and the spec's scenarios require these lookups to succeed, so the
conversion service's names are the ones the engine's tables use. -/
def monthName (y m : Nat) : String :=
  if m == 1 then "Nisan"
  else if m == 2 then "Iyar"
  else if m == 3 then "Sivan"
  else if m == 4 then "Tammuz"
  else if m == 5 then "Av"
  else if m == 6 then "Elul"
  else if m == 7 then "Tishrei"
  else if m == 8 then "Cheshvan"
  else if m == 9 then "Kislev"
  else if m == 10 then "Tevet"
  else if m == 11 then "Shevat"
  else if m == 12 then (if hebrewLeap y then "Adar 1" else "Adar")
  else "Adar 2"

/-! ### The `DateConditions` snapshot (`tefilla_rules.py:33-49`) -/

/-- Conditions applicable to a specific date (`DateConditions`). -/
structure DateConditions where
  day_of_week : String
  holiday : Option String
  rosh_chodesh : Bool
  chol_hamoed : Bool
  fast_day : Bool
  aseret_yemei_teshuvah : Bool
  sefirat_haomer : Nat
  mashiv_haruach : Bool
  veten_tal_umattar : Bool
  hallel_type : String
  full_shmoneh_esreh : Bool
deriving DecidableEq, Repr

/-! ### The calendar-conditions engine (`HebrewCalendar`) -/

/-- `HebrewCalendar._get_holiday_from_hebrew_date`
(`tefilla_rules.py:123-156`). -/
def getHolidayFromHebrewDate (mn : String) (day : Nat) : Option String :=
  if mn == "Tishrei" then
    if day == 1 || day == 2 then some "rosh_hashana"
    else if day == 10 then some "yom_kippur"
    else if [15, 16, 17, 18, 19, 20, 21].contains day then some "sukkot"
    else if day == 22 || day == 23 then some "shmini_atzeret"
    else none
  else if mn == "Nisan" && [15, 16, 17, 18, 19, 20, 21].contains day then some "pesach"
  else if mn == "Sivan" && (day == 6 || day == 7) then some "shavuot"
  else if mn == "Kislev" then
    (if [25, 26, 27, 28, 29, 30].contains day then some "chanukkah" else none)
  else if mn == "Tevet" then
    (if [1, 2, 3].contains day then some "chanukkah" else none)
  else if (mn == "Adar" || mn == "Adar 2") && day == 14 then some "purim"
  else none

/-- `HebrewCalendar._is_rosh_chodesh_hebrew` (`tefilla_rules.py:158-181`):
day 1 always; day 30 when the probe `replace(day=30)` succeeds, i.e. when
the month has a 30th day. -/
def isRoshChodeshHebrew (h : HDate) : Bool :=
  h.day == 1 || (h.day == 30 && hebrewMonthLength h.year h.month == 30)

/-- `HebrewCalendar._is_chol_hamoed_hebrew` (`tefilla_rules.py:183-195`). -/
def isCholHamoedHebrew (mn : String) (day : Nat) : Bool :=
  (mn == "Tishrei" && 16 ≤ day && day ≤ 20) || (mn == "Nisan" && 16 ≤ day && day ≤ 20)

/-- `HebrewCalendar._is_fast_day_hebrew` (`tefilla_rules.py:197-210`). -/
def isFastDayHebrew (mn : String) (day : Nat) : Bool :=
  [("Tevet", 10), ("Av", 9), ("Tammuz", 17), ("Tishrei", 3)].contains (mn, day)

/-- `HebrewCalendar._is_aseret_yemei_teshuvah` (`tefilla_rules.py:212-225`). -/
def isAseretYemeiTeshuvah (mn : String) (day : Nat) : Bool :=
  mn == "Tishrei" && 1 ≤ day && day ≤ 10

/-- `HebrewCalendar._calculate_sefirat_haomer` (`tefilla_rules.py:227-257`). -/
def calculateSefiratHaomer (mn : String) (day : Nat) : Nat :=
  if mn == "Nisan" then (if day ≥ 16 then day - 15 else 0)
  else if mn == "Iyar" then 15 + day
  else if mn == "Sivan" then (if day ≤ 5 then 44 + day else 0)
  else 0

/-- The winter months list of `tefilla_rules.py:277`. -/
def winterMonths : List String :=
  ["Cheshvan", "Kislev", "Tevet", "Shevat", "Adar", "Adar 2"]

/-- `HebrewCalendar._is_mashiv_haruach_period` (`tefilla_rules.py:259-293`);
the Python `if`-blocks without a terminal `return` fall through to the
next top-level test. -/
def isMashivHaruachPeriod (mn : String) (day : Nat) (tefillaType : String) : Bool :=
  if mn == "Tishrei" && day ≥ 22
      && ((day == 22 && tefillaType == "maariv") || day > 22) then true
  else if winterMonths.contains mn then true
  else if mn == "Nisan" && day == 15
      && (tefillaType == "shacharis" || tefillaType == "mincha") then false
  else if mn == "Nisan" && day == 15 && tefillaType == "maariv" then true
  else if mn == "Nisan" && day ≤ 14 then true
  else false

/-- `HebrewCalendar._is_veten_tal_umattar_period` (`tefilla_rules.py:295-321`).
The call `dates.HebrewDate(hebrew_year, 7, 15)` is modelled from the spec
as Passover's first day (15 Nisan) of that Hebrew year, which is what the
source's comment and the specification say it denotes.  Date comparisons
are Rata Die comparisons. -/
def isVetenTalUmattarPeriod (g : GDate) : Bool :=
  let upcomingYear := g.year + 1
  let isLeapYear := gregorianLeap upcomingYear
  let startDay := if isLeapYear then 5 else 4
  let vetenTalStart := toRD ⟨g.year, 12, startDay⟩
  let hebrewYear := (hebrewFromRD (toRD g)).year
  let pesachRD := hebrewToRD ⟨hebrewYear, 1, 15⟩
  vetenTalStart ≤ toRD g && toRD g < pesachRD

/-- The four full-Hallel holidays of `tefilla_rules.py:332`. -/
def fullHallelHolidays : List String := ["pesach", "shavuot", "sukkot", "chanukkah"]

/-- Python `x in list` membership for an optional string (`None` is never
a member of a list of strings). -/
def optInList (o : Option String) (l : List String) : Bool :=
  match o with
  | some s => l.contains s
  | none => false

/-- Substring occurrence test, modelling Python's `sub in str`. -/
def strContainsSub (s pat : String) : Bool :=
  (List.range (s.toList.length + 1)).any (fun i => pat.toList.isPrefixOf (s.toList.drop i))

/-- Python truthiness of an optional string (`None` and `""` are falsy). -/
def optStrTruthy (o : Option String) : Bool :=
  match o with
  | some s => s != ""
  | none => false

/-- `HebrewCalendar._calculate_hallel_type` (`tefilla_rules.py:323-348`).
The second branch is the source's literal test
`rosh_chodesh or (holiday and 'chol_hamoed' in str(holiday))`. -/
def calculateHallelType (holiday : Option String) (roshChodesh : Bool)
    (sefiratHaomer : Nat) : String :=
  if optInList holiday fullHallelHolidays then "full"
  else if roshChodesh || (optStrTruthy holiday && strContainsSub (holiday.getD "") "chol_hamoed") then "partial"
  else if 0 < sefiratHaomer && sefiratHaomer < 33 then "none"
  else if sefiratHaomer ≥ 33 then "full"
  else "none"

/-- The six major holidays of `tefilla_rules.py:366`. -/
def majorHolidays : List String :=
  ["pesach", "shavuot", "sukkot", "rosh_hashana", "yom_kippur", "shmini_atzeret"]

/-- `HebrewCalendar._calculate_full_shmoneh_esreh` (`tefilla_rules.py:350-373`). -/
def calculateFullShmonehEsreh (dayOfWeek : String) (holiday : Option String) : Bool :=
  if dayOfWeek != "weekday" then false
  else if optInList holiday majorHolidays then false
  else true

/-- `HebrewCalendar.get_date_conditions` (`tefilla_rules.py:58-120`):
for maariv the Hebrew date is advanced by one day (the library's `+ 1` is
day arithmetic on the underlying fixed day number); `weekday() == 7`
means Saturday, i.e. Rata Die `% 7 == 6`. -/
def getDateConditions (g : GDate) (tefillaType : String) : DateConditions :=
  let hrd := if tefillaType == "maariv" then toRD g + 1 else toRD g
  let h := hebrewFromRD hrd
  let mn := monthName h.year h.month
  let dayOfWeek := if hrd % 7 == 6 then "shabbat" else "weekday"
  let holiday := getHolidayFromHebrewDate mn h.day
  let roshChodesh := isRoshChodeshHebrew h
  let sefiratHaomer := calculateSefiratHaomer mn h.day
  { day_of_week := dayOfWeek
    holiday := holiday
    rosh_chodesh := roshChodesh
    chol_hamoed := isCholHamoedHebrew mn h.day
    fast_day := isFastDayHebrew mn h.day
    aseret_yemei_teshuvah := isAseretYemeiTeshuvah mn h.day
    sefirat_haomer := sefiratHaomer
    mashiv_haruach := isMashivHaruachPeriod mn h.day tefillaType
    veten_tal_umattar := isVetenTalUmattarPeriod g
    hallel_type := calculateHallelType holiday roshChodesh sefiratHaomer
    full_shmoneh_esreh := calculateFullShmonehEsreh dayOfWeek holiday }

/-! ### The rule-matching engine (`TefillaRuleEngine`) -/

/-- A declared condition value: a Python scalar, list, or min/max dict. -/
inductive CValue where
  | vb : Bool → CValue
  | vs : String → CValue
  | vi : Int → CValue
  | vnone : CValue
  | vlist : List CValue → CValue
  | vrange : Option Int → Option Int → CValue

/-- A prayer chunk annotation (`ChunkAnnotation`, `tefilla_rules.py:24-30`). -/
structure ChunkAnnot where
  name : String
  tefilla_types : List String
  conditions : List (String × CValue)

/-- Python `==` between a snapshot boolean field and a declared value
(only a boolean scalar can be equal). -/
def boolEqCV (b : Bool) (v : CValue) : Bool :=
  match v with
  | CValue.vb c => b == c
  | _ => false

/-- Python `==` between a snapshot string field and a declared value. -/
def strEqCV (s : String) (v : CValue) : Bool :=
  match v with
  | CValue.vs t => s == t
  | _ => false

/-- Python `==` between the optional holiday field and a declared value
(`None` equals only `None`). -/
def optStrEqCV (o : Option String) (v : CValue) : Bool :=
  match o, v with
  | some s, CValue.vs t => s == t
  | none, CValue.vnone => true
  | _, _ => false

/-- Python truthiness of a declared value (for the `always` key). -/
def truthyCV (v : CValue) : Bool :=
  match v with
  | CValue.vb b => b
  | CValue.vs s => s != ""
  | CValue.vi i => i != 0
  | CValue.vnone => false
  | CValue.vlist l => !l.isEmpty
  | CValue.vrange _ _ => true

/-- `TefillaRuleEngine._condition_matches` (`tefilla_rules.py:411-455`):
the dispatch on the condition key; unrecognized keys (and unsupported
value shapes for `sefirat_haomer`) reach the final `return False`. -/
def conditionMatches (key : String) (v : CValue) (dc : DateConditions) : Bool :=
  if key == "mashiv_haruach" then boolEqCV dc.mashiv_haruach v
  else if key == "veten_tal_umattar" then boolEqCV dc.veten_tal_umattar v
  else if key == "day_of_week" then strEqCV dc.day_of_week v
  else if key == "holiday" then
    match v with
    | CValue.vlist l => l.any (fun x => optStrEqCV dc.holiday x)
    | _ => optStrEqCV dc.holiday v
  else if key == "rosh_chodesh" then boolEqCV dc.rosh_chodesh v
  else if key == "chol_hamoed" then boolEqCV dc.chol_hamoed v
  else if key == "fast_day" then boolEqCV dc.fast_day v
  else if key == "aseret_yemei_teshuvah" then boolEqCV dc.aseret_yemei_teshuvah v
  else if key == "sefirat_haomer" then
    match v with
    | CValue.vi i => (dc.sefirat_haomer : Int) == i
    | CValue.vrange lo hi =>
        decide (lo.getD 0 ≤ (dc.sefirat_haomer : Int)) && decide ((dc.sefirat_haomer : Int) ≤ hi.getD 49)
    | _ => false
  else if key == "hallel_type" then
    match v with
    | CValue.vlist l => l.any (fun x => strEqCV dc.hallel_type x)
    | _ => strEqCV dc.hallel_type v
  else if key == "full_shmoneh_esreh" then boolEqCV dc.full_shmoneh_esreh v
  else if key == "always" then truthyCV v
  else false

/-- `TefillaRuleEngine._chunk_matches_conditions` (`tefilla_rules.py:398-409`). -/
def chunkMatches (a : ChunkAnnot) (tefillaType : String) (dc : DateConditions) : Bool :=
  a.tefilla_types.contains tefillaType
    && a.conditions.all (fun kv => conditionMatches kv.1 kv.2 dc)

/-- One assignment `d[a.name] = a` in a Python dict: an existing key keeps
its position and gets the new value, a new key is appended. -/
def dictInsert (d : List ChunkAnnot) (a : ChunkAnnot) : List ChunkAnnot :=
  if d.any (fun x => x.name == a.name) then
    d.map (fun x => if x.name == a.name then a else x)
  else d ++ [a]

/-- `TefillaRuleEngine.__init__` (`tefilla_rules.py:379-381`): the dict
comprehension `{ann.name: ann for ann in chunk_annotations}` as an ordered
association list. -/
def mkEngine (l : List ChunkAnnot) : List ChunkAnnot :=
  l.foldl dictInsert []

/-- The selection loop of `TefillaRuleEngine.build_tefilla`
(`tefilla_rules.py:390-396`), given an already-computed snapshot. -/
def selectSegments (tefillaType : String) (dc : DateConditions)
    (registry : List ChunkAnnot) : List String :=
  ((mkEngine registry).filter (fun a => chunkMatches a tefillaType dc)).map
    (fun a => a.name)

/-- `TefillaRuleEngine.build_tefilla` (`tefilla_rules.py:383-396`): compute
the snapshot, then select matching chunks in registry order.  There is no
validation of `tefilla_type`. -/
def buildTefilla (registry : List ChunkAnnot) (tefillaType : String) (g : GDate) :
    List String :=
  selectSegments tefillaType (getDateConditions g tefillaType) registry

/-! ### Conversion sanity checks

A few of the civil/Hebrew date pairs recorded in the repository's test
suite, evaluated on the modelled conversion service. -/

theorem conversion_check_rosh_hashana_5786 :
    hebrewFromRD (toRD ⟨2025, 9, 23⟩) = ⟨5786, 7, 1⟩ := by decide

theorem conversion_check_pesach_5786 :
    hebrewFromRD (toRD ⟨2026, 4, 2⟩) = ⟨5786, 1, 15⟩ := by decide

theorem conversion_check_purim_leap_5787 :
    hebrewFromRD (toRD ⟨2027, 3, 23⟩) = ⟨5787, 13, 14⟩ := by decide

theorem conversion_check_chanukkah_5786 :
    hebrewFromRD (toRD ⟨2025, 12, 15⟩) = ⟨5786, 9, 25⟩ := by decide

/-! ### Rule-engine lemmas -/

theorem dictInsert_of_fresh (d : List ChunkAnnot) (a : ChunkAnnot)
    (h : ∀ x ∈ d, x.name ≠ a.name) : dictInsert d a = d ++ [a] := by
  unfold dictInsert
  rw [if_neg]
  simp only [List.any_eq_true, beq_iff_eq]
  rintro ⟨x, hx, hxa⟩
  exact h x hx hxa

theorem foldl_dictInsert_of_nodup (l : List ChunkAnnot) :
    ∀ acc : List ChunkAnnot,
      (((acc ++ l).map (fun x => x.name)).Nodup) →
      List.foldl dictInsert acc l = acc ++ l := by
  induction l with
  | nil => intro acc _; simp
  | cons a t ih =>
      intro acc hnd
      have hnd' := hnd
      rw [List.map_append, List.nodup_append] at hnd'
      have hfresh : ∀ x ∈ acc, x.name ≠ a.name := by
        intro x hx heq
        exact hnd'.2.2 (List.mem_map_of_mem _ hx) (by simp [heq])
      rw [List.foldl_cons, dictInsert_of_fresh acc a hfresh]
      have step := ih (acc ++ [a]) (by simpa [List.append_assoc] using hnd)
      rw [step, List.append_assoc]
      simp

/-- On a registry whose names are pairwise distinct (the real
configuration: keys of an ordered table), the engine's dict retains the
registry unchanged. -/
theorem mkEngine_of_nodup (l : List ChunkAnnot)
    (h : (l.map (fun x => x.name)).Nodup) : mkEngine l = l := by
  unfold mkEngine
  simpa using foldl_dictInsert_of_nodup l [] (by simpa using h)

theorem dictInsert_names_nodup (d : List ChunkAnnot) (a : ChunkAnnot)
    (h : (d.map (fun x => x.name)).Nodup) :
    ((dictInsert d a).map (fun x => x.name)).Nodup := by
  unfold dictInsert
  split_ifs with hmem
  · have : (d.map (fun x => if x.name == a.name then a else x)).map (fun x => x.name)
        = d.map (fun x => x.name) := by
      rw [List.map_map]
      refine List.map_congr_left ?_
      intro x _
      by_cases hx : x.name == a.name
      · simp only [Function.comp, hx, if_pos]
        exact (beq_iff_eq.mp hx).symm
      · simp only [Function.comp, hx, if_neg]
        rfl
    rw [this]
    exact h
  · rw [List.map_append, List.nodup_append]
    refine ⟨h, List.nodup_singleton _, ?_⟩
    intro n hn hna
    simp only [List.map_cons, List.map_nil, List.mem_singleton] at hna
    subst hna
    simp only [List.any_eq_true, beq_iff_eq] at hmem
    obtain ⟨x, hx, hxa⟩ := List.mem_map.mp hn
    exact hmem ⟨x, hx, hxa⟩

theorem mkEngine_names_nodup (l : List ChunkAnnot) :
    ((mkEngine l).map (fun x => x.name)).Nodup := by
  unfold mkEngine
  suffices h : ∀ acc : List ChunkAnnot, (acc.map (fun x => x.name)).Nodup →
      ((List.foldl dictInsert acc l).map (fun x => x.name)).Nodup by
    exact h [] (by simp)
  induction l with
  | nil => intro acc hacc; simpa using hacc
  | cons a t ih =>
      intro acc hacc
      rw [List.foldl_cons]
      exact ih (dictInsert acc a) (dictInsert_names_nodup acc a hacc)

theorem selectSegments_of_nodup (tefillaType : String) (dc : DateConditions)
    (registry : List ChunkAnnot)
    (h : (registry.map (fun x => x.name)).Nodup) :
    selectSegments tefillaType dc registry
      = (registry.filter (fun a => chunkMatches a tefillaType dc)).map
          (fun a => a.name) := by
  unfold selectSegments
  rw [mkEngine_of_nodup registry h]

/-! ### Civil date arithmetic -/

/-- Advancing a valid civil date by one day advances its fixed day number
by one: `date + timedelta(days=1)` and ordinal arithmetic agree. -/
theorem daysBeforeMonth_succ (y m : Nat) (hm : 1 ≤ m) :
    daysBeforeMonth y (m + 1) = daysBeforeMonth y m + gregorianMonthLength y m := by
  obtain ⟨k, rfl⟩ : ∃ k, m = k + 1 := ⟨m - 1, by omega⟩
  rfl

theorem daysBeforeMonth_one (y : Nat) : daysBeforeMonth y 1 = 0 := rfl

theorem daysBeforeMonth_twelve (y : Nat) :
    daysBeforeMonth y 12 = 334 + (if gregorianLeap y then 1 else 0) := by
  cases hl : gregorianLeap y <;>
    simp only [daysBeforeMonth, gregorianMonthLength, hl] <;> rfl

set_option maxHeartbeats 1600000 in
/-- Advancing a valid civil date by one day advances its fixed day number
by one: `date + timedelta(days=1)` and ordinal arithmetic agree. -/
theorem toRD_nextDate (g : GDate) (hv : validGDate g) :
    toRD (nextDate g) = toRD g + 1 := by
  obtain ⟨y, m, d⟩ := g
  obtain ⟨hy, hm1, hm2, hd1, hd2⟩ := hv
  simp only at hy hm1 hm2 hd1 hd2
  unfold nextDate
  simp only
  split_ifs with h1 h2
  · -- same month
    simp only [toRD]
    omega
  · -- next month within the year
    have hd : d = gregorianMonthLength y m := by omega
    subst hd
    simp only [toRD, daysBeforeMonth_succ y m hm1]
    omega
  · -- next year
    have hm : m = 12 := by omega
    subst hm
    have hlen : gregorianMonthLength y 12 = 31 := rfl
    have hd : d = 31 := by omega
    subst hd
    have hleap : gregorianLeap y = true ↔ ((y % 4 = 0 ∧ y % 100 ≠ 0) ∨ y % 400 = 0) := by
      simp [gregorianLeap, Bool.or_eq_true, Bool.and_eq_true, beq_iff_eq, bne_iff_ne]
  -- the two leap branches
    cases hl : gregorianLeap y
    · have hnl : ¬ ((y % 4 = 0 ∧ y % 100 ≠ 0) ∨ y % 400 = 0) := by
        intro hc
        rw [← hleap, hl] at hc
        exact Bool.false_ne_true hc
      have h334 : daysBeforeMonth y 12 = 334 := by
        rw [daysBeforeMonth_twelve, hl]
        rfl
      simp only [toRD, h334, daysBeforeMonth_one]
      omega
    · have hll : (y % 4 = 0 ∧ y % 100 ≠ 0) ∨ y % 400 = 0 := hleap.mp hl
      have h335 : daysBeforeMonth y 12 = 335 := by
        rw [daysBeforeMonth_twelve, hl]
        rfl
      simp only [toRD, h335, daysBeforeMonth_one]
      omega

/-! ### Claim theorems: calendar-conditions engine -/

/-- C2.  Nightfall correction: the evening-service snapshot for civil
date D equals the morning-service snapshot for civil date D+1 in every
field driven purely by the calendar date — holiday, new-month,
intermediate-days, omer, fast-day, and ten-days-of-repentance — because
maariv advances the Hebrew date by one day and those fields depend only
on the Hebrew date. -/
theorem nightfall_correction (g : GDate) (hv : validGDate g) :
    (getDateConditions g "maariv").holiday
        = (getDateConditions (nextDate g) "shacharis").holiday
    ∧ (getDateConditions g "maariv").rosh_chodesh
        = (getDateConditions (nextDate g) "shacharis").rosh_chodesh
    ∧ (getDateConditions g "maariv").chol_hamoed
        = (getDateConditions (nextDate g) "shacharis").chol_hamoed
    ∧ (getDateConditions g "maariv").sefirat_haomer
        = (getDateConditions (nextDate g) "shacharis").sefirat_haomer
    ∧ (getDateConditions g "maariv").fast_day
        = (getDateConditions (nextDate g) "shacharis").fast_day
    ∧ (getDateConditions g "maariv").aseret_yemei_teshuvah
        = (getDateConditions (nextDate g) "shacharis").aseret_yemei_teshuvah := by
  have h1 : toRD (nextDate g) = toRD g + 1 := toRD_nextDate g hv
  simp [getDateConditions, h1]

/-- Concrete instantiation of C2's theorem at civil 2024-04-25. -/
theorem nightfall_correction_witness :
    validGDate ⟨2024, 4, 25⟩
    ∧ ((getDateConditions ⟨2024, 4, 25⟩ "maariv").holiday
          = (getDateConditions (nextDate ⟨2024, 4, 25⟩) "shacharis").holiday
        ∧ (getDateConditions ⟨2024, 4, 25⟩ "maariv").rosh_chodesh
          = (getDateConditions (nextDate ⟨2024, 4, 25⟩) "shacharis").rosh_chodesh
        ∧ (getDateConditions ⟨2024, 4, 25⟩ "maariv").chol_hamoed
          = (getDateConditions (nextDate ⟨2024, 4, 25⟩) "shacharis").chol_hamoed
        ∧ (getDateConditions ⟨2024, 4, 25⟩ "maariv").sefirat_haomer
          = (getDateConditions (nextDate ⟨2024, 4, 25⟩) "shacharis").sefirat_haomer
        ∧ (getDateConditions ⟨2024, 4, 25⟩ "maariv").fast_day
          = (getDateConditions (nextDate ⟨2024, 4, 25⟩) "shacharis").fast_day
        ∧ (getDateConditions ⟨2024, 4, 25⟩ "maariv").aseret_yemei_teshuvah
          = (getDateConditions (nextDate ⟨2024, 4, 25⟩) "shacharis").aseret_yemei_teshuvah) :=
  ⟨by decide, nightfall_correction ⟨2024, 4, 25⟩ (by decide)⟩

set_option maxRecDepth 8192 in
/-- C3 evaluation at the failing input.  On civil 2024-04-25 (17 Nisan,
an intermediate Passover day) the morning snapshot has holiday `pesach`
and the intermediate-days flag set, but its praise level is `"full"`,
not the `"partial"` that the claim, the function's own docstring, and
the repository's `tests/test_rule_engine.py` call for: the holiday
branch fires because the holiday field still holds `pesach`, and the
intended intermediate-days test `'chol_hamoed' in str(holiday)` can
never be true. -/
theorem chol_hamoed_hallel_is_full_at_failing_input :
    (getDateConditions ⟨2024, 4, 25⟩ "shacharis").holiday = some "pesach"
    ∧ (getDateConditions ⟨2024, 4, 25⟩ "shacharis").chol_hamoed = true
    ∧ (getDateConditions ⟨2024, 4, 25⟩ "shacharis").hallel_type = "full"
    ∧ (getDateConditions ⟨2024, 4, 25⟩ "shacharis").hallel_type ≠ "partial" :=
  ⟨by decide, by decide, by decide, by decide⟩

set_option maxRecDepth 8192 in
/-- C4 counterexample.  On civil 2024-04-25 (an intermediate Passover
day falling on an ordinary weekday) the morning snapshot has
`full_shmoneh_esreh = false`, refuting the claim that the full standing
prayer remains in use on intermediate festival days: the holiday field
still holds `pesach`, one of the six major holidays. -/
theorem full_shmoneh_esreh_false_mid_pesach :
    (getDateConditions ⟨2024, 4, 25⟩ "shacharis").day_of_week = "weekday"
    ∧ (getDateConditions ⟨2024, 4, 25⟩ "shacharis").chol_hamoed = true
    ∧ (getDateConditions ⟨2024, 4, 25⟩ "shacharis").full_shmoneh_esreh = false :=
  ⟨by decide, by decide, by decide⟩

/-- C4 amended.  For every civil date and service type,
`full_shmoneh_esreh` is true exactly when the weekday category is
ordinary and the holiday field is not one of the six major holidays; in
particular it stays true on new-month days, minor holidays, and fast
days on ordinary weekdays, and is false on intermediate festival days
(whose holiday field holds the festival). -/
theorem full_shmoneh_esreh_characterization (g : GDate) (tefillaType : String) :
    (getDateConditions g tefillaType).full_shmoneh_esreh
      = ((getDateConditions g tefillaType).day_of_week == "weekday"
          && !optInList (getDateConditions g tefillaType).holiday majorHolidays) := by
  have hfun : ∀ (dow : String) (hol : Option String),
      calculateFullShmonehEsreh dow hol
        = (dow == "weekday" && !optInList hol majorHolidays) := by
    intro dow hol
    by_cases hdow : dow = "weekday"
    · subst hdow
      cases hopt : optInList hol majorHolidays <;>
        simp [calculateFullShmonehEsreh, hopt]
    · simp [calculateFullShmonehEsreh, hdow, bne_iff_ne, beq_iff_eq]
  simp only [getDateConditions]
  exact hfun _ _

set_option maxRecDepth 8192 in
/-- C5 evaluation at the failing inputs.  Civil 2026-01-15 lies strictly
between the December 4, 2025 start and the civil date of Passover's
first day (2026-04-02), yet the snapshot's rain-insertion flag is false
for every service: the code compares against December 4 of the date's
own civil year, which for January–spring dates lies in the future.  And
on the start date December 4, 2026 the flag is already true for the
morning service, though the claim includes the start date only for the
evening service: the function never consults the service type. -/
theorem veten_tal_umattar_failing_inputs :
    (getDateConditions ⟨2026, 1, 15⟩ "shacharis").veten_tal_umattar = false
    ∧ (getDateConditions ⟨2026, 1, 15⟩ "maariv").veten_tal_umattar = false
    ∧ (getDateConditions ⟨2026, 12, 4⟩ "shacharis").veten_tal_umattar = true
    ∧ isVetenTalUmattarPeriod ⟨2026, 1, 15⟩ = false :=
  ⟨by decide, by decide, by decide, by decide⟩

/-- C6.  For every valid Hebrew calendar date, the omer count is at most
49; it equals day-of-month minus 15 for days 16 and later of Nisan,
15 plus day-of-month throughout Iyar, 44 plus day-of-month for days 1–5
of Sivan, and 0 elsewhere; hence it is nonzero exactly inside that
window. -/
theorem sefirat_haomer_bounds (y m d : Nat) (hm1 : 1 ≤ m) (hm2 : m ≤ 13)
    (hd1 : 1 ≤ d) (hd2 : d ≤ hebrewMonthLength y m) :
    calculateSefiratHaomer (monthName y m) d ≤ 49
    ∧ calculateSefiratHaomer (monthName y m) d
        = (if m = 1 ∧ 16 ≤ d then d - 15
           else if m = 2 then 15 + d
           else if m = 3 ∧ d ≤ 5 then 44 + d
           else 0)
    ∧ (calculateSefiratHaomer (monthName y m) d ≠ 0
        ↔ ((m = 1 ∧ 16 ≤ d) ∨ m = 2 ∨ (m = 3 ∧ d ≤ 5))) := by
  rcases Bool.eq_false_or_eq_true (hebrewLeap y) with hl | hl <;>
    (interval_cases m <;>
      simp_all [calculateSefiratHaomer, monthName, hebrewMonthLength] <;>
      first
        | omega
        | (split_ifs <;> omega))

/-- Concrete instantiation of C6's theorem at 17 Nisan 5784
(civil 2024-04-25), where the omer count is 2. -/
theorem sefirat_haomer_bounds_witness :
    (1 ≤ 1 ∧ 1 ≤ 13 ∧ 1 ≤ 17 ∧ 17 ≤ hebrewMonthLength 5784 1)
    ∧ (calculateSefiratHaomer (monthName 5784 1) 17 ≤ 49
        ∧ calculateSefiratHaomer (monthName 5784 1) 17
            = (if 1 = 1 ∧ 16 ≤ 17 then 17 - 15
               else if 1 = 2 then 15 + 17
               else if 1 = 3 ∧ 17 ≤ 5 then 44 + 17
               else 0)
        ∧ (calculateSefiratHaomer (monthName 5784 1) 17 ≠ 0
            ↔ ((1 = 1 ∧ 16 ≤ 17) ∨ 1 = 2 ∨ (1 = 3 ∧ 17 ≤ 5)))) :=
  ⟨by decide, sefirat_haomer_bounds 5784 1 17 (by decide) (by decide)
    (by decide) (by decide)⟩

/-! ### Claim theorems: rule-matching engine -/

/-- C1.  For every service type, snapshot, and registry (with the unique
keys the spec requires), the selection operation returns exactly the keys
of the annotations whose `tefilla_types` contain the service type and all
of whose conditions match the snapshot, in the registry's own
declaration/insertion order — the output is the filtered registry, hence
a subsequence of the registry order, never reordered. -/
theorem build_tefilla_filters_in_registry_order (tefillaType : String)
    (dc : DateConditions) (registry : List ChunkAnnot)
    (h : (registry.map (fun x => x.name)).Nodup) :
    selectSegments tefillaType dc registry
      = (registry.filter (fun a => chunkMatches a tefillaType dc)).map
          (fun a => a.name)
    ∧ List.Sublist (selectSegments tefillaType dc registry)
        (registry.map (fun x => x.name)) := by
  have he := selectSegments_of_nodup tefillaType dc registry h
  refine ⟨he, ?_⟩
  rw [he]
  exact List.Sublist.map _ (List.filter_sublist _)

/-- Concrete instantiation of C1's theorem. -/
theorem build_tefilla_filters_in_registry_order_witness :
    (([⟨"a", ["shacharis"], []⟩, ⟨"b", ["mincha"], []⟩] :
        List ChunkAnnot).map (fun x => x.name)).Nodup
    ∧ (selectSegments "shacharis"
          (getDateConditions ⟨2024, 1, 15⟩ "shacharis")
          [⟨"a", ["shacharis"], []⟩, ⟨"b", ["mincha"], []⟩]
        = (([⟨"a", ["shacharis"], []⟩, ⟨"b", ["mincha"], []⟩] :
            List ChunkAnnot).filter
              (fun a => chunkMatches a "shacharis"
                (getDateConditions ⟨2024, 1, 15⟩ "shacharis"))).map
            (fun a => a.name)
        ∧ List.Sublist
            (selectSegments "shacharis"
              (getDateConditions ⟨2024, 1, 15⟩ "shacharis")
              [⟨"a", ["shacharis"], []⟩, ⟨"b", ["mincha"], []⟩])
            (([⟨"a", ["shacharis"], []⟩, ⟨"b", ["mincha"], []⟩] :
                List ChunkAnnot).map (fun x => x.name))) :=
  ⟨by decide, build_tefilla_filters_in_registry_order "shacharis"
    (getDateConditions ⟨2024, 1, 15⟩ "shacharis")
    [⟨"a", ["shacharis"], []⟩, ⟨"b", ["mincha"], []⟩] (by decide)⟩

/-- The condition keys recognized by `_condition_matches`
(`tefilla_rules.py:411-455`). -/
def recognizedKeys : List String :=
  ["mashiv_haruach", "veten_tal_umattar", "day_of_week", "holiday",
   "rosh_chodesh", "chol_hamoed", "fast_day", "aseret_yemei_teshuvah",
   "sefirat_haomer", "hallel_type", "full_shmoneh_esreh", "always"]

/-- C7.  A condition key outside the recognized set evaluates to a
non-match for every declared value and every snapshot: the dispatch falls
through to the final `return False`, so an annotation carrying such a key
is never selected (fail-closed, never silently true). -/
theorem unrecognized_condition_key_fails_closed (key : String) (v : CValue)
    (dc : DateConditions) (h : key ∉ recognizedKeys) :
    conditionMatches key v dc = false := by
  simp only [recognizedKeys, List.mem_cons, List.not_mem_nil, or_false,
    not_or] at h
  obtain ⟨h1, h2, h3, h4, h5, h6, h7, h8, h9, h10, h11, h12⟩ := h
  simp [conditionMatches, h1, h2, h3, h4, h5, h6, h7, h8, h9, h10, h11, h12]

/-- Concrete instantiation of C7's theorem at the key `"season"`. -/
theorem unrecognized_condition_key_fails_closed_witness :
    ("season" ∉ recognizedKeys)
    ∧ conditionMatches "season" (CValue.vs "summer")
        (getDateConditions ⟨2024, 1, 15⟩ "shacharis") = false :=
  ⟨by decide, unrecognized_condition_key_fails_closed "season"
    (CValue.vs "summer") (getDateConditions ⟨2024, 1, 15⟩ "shacharis")
    (by decide)⟩

/-- A registry whose single annotation names the non-standard service
type `"musaf"`, used to exhibit the absence of service-type validation. -/
def musafRegistry : List ChunkAnnot :=
  [⟨"extra", ["musaf"], [("always", CValue.vb true)]⟩]

/-- C8 counterexample.  `build_tefilla` called with the service type
`"musaf"` — outside the fixed three-member set — is not rejected: the
computation proceeds and returns an ordinary, even non-empty, result. -/
theorem unknown_service_type_returns_ordinary_result :
    buildTefilla musafRegistry "musaf" ⟨2024, 1, 15⟩ = ["extra"] := by decide

/-- C8 amended.  The engine performs no service-type validation: for any
service type outside {shacharis, mincha, maariv}, `build_tefilla`
proceeds through the ordinary computation and returns the ordinary
filtered selection (empty only when no annotation lists that type with
matching conditions); rejection of unknown service types happens only in
the CLI scripts' argument parsing. -/
theorem unknown_service_type_no_rejection (tefillaType : String)
    (g : GDate) (registry : List ChunkAnnot)
    (_ht : tefillaType ∉ (["shacharis", "mincha", "maariv"] : List String))
    (h : (registry.map (fun x => x.name)).Nodup) :
    buildTefilla registry tefillaType g
      = (registry.filter
          (fun a => chunkMatches a tefillaType (getDateConditions g tefillaType))).map
          (fun a => a.name) := by
  unfold buildTefilla
  exact selectSegments_of_nodup tefillaType (getDateConditions g tefillaType)
    registry h

/-- Concrete instantiation of C8's amended theorem. -/
theorem unknown_service_type_no_rejection_witness :
    ("musaf" ∉ (["shacharis", "mincha", "maariv"] : List String))
    ∧ (musafRegistry.map (fun x => x.name)).Nodup
    ∧ buildTefilla musafRegistry "musaf" ⟨2024, 1, 15⟩
        = (musafRegistry.filter
            (fun a => chunkMatches a "musaf"
              (getDateConditions ⟨2024, 1, 15⟩ "musaf"))).map
            (fun a => a.name) :=
  ⟨by decide, by decide, unknown_service_type_no_rejection "musaf"
    ⟨2024, 1, 15⟩ musafRegistry (by decide) (by decide)⟩

/-- C9.  When the holiday field holds one of the four full-Hallel
holidays, `_calculate_hallel_type` returns `"full"` regardless of the
new-month flag or the omer count: the holiday branch takes precedence
over the new-month branch, so a dedication-days date that is also a
new-month day gets full, not partial, praise. -/
theorem holiday_precedes_rosh_chodesh_hallel (holiday : String)
    (roshChodesh : Bool) (sefiratHaomer : Nat)
    (h : holiday ∈ fullHallelHolidays) :
    calculateHallelType (some holiday) roshChodesh sefiratHaomer = "full" := by
  unfold calculateHallelType
  rw [if_pos]
  simp [optInList, h]

set_option maxRecDepth 8192 in
/-- Concrete instantiation of C9's theorem: the snapshot for civil
2025-12-21 (30 Kislev: dedication-days and a new-month day) carries
holiday `chanukkah` with the new-month flag set, and its praise level is
`"full"`. -/
theorem holiday_precedes_rosh_chodesh_hallel_witness :
    ("chanukkah" ∈ fullHallelHolidays)
    ∧ calculateHallelType (some "chanukkah") true 0 = "full"
    ∧ (getDateConditions ⟨2025, 12, 21⟩ "shacharis").holiday = some "chanukkah"
    ∧ (getDateConditions ⟨2025, 12, 21⟩ "shacharis").rosh_chodesh = true
    ∧ (getDateConditions ⟨2025, 12, 21⟩ "shacharis").hallel_type = "full" :=
  ⟨by decide, holiday_precedes_rosh_chodesh_hallel "chanukkah" true 0 (by decide),
    by decide, by decide, by decide⟩

/-- C10.  The engine stores annotations in a name-keyed mapping, so every
selection output lists each key at most once; and when the constructor
list contains two annotations with the same name, the mapping retains
only the last one. -/
theorem engine_keyed_by_name_nodup_last_retained (registry : List ChunkAnnot)
    (tefillaType : String) (dc : DateConditions) (a1 a2 : ChunkAnnot)
    (h : a1.name = a2.name) :
    (selectSegments tefillaType dc registry).Nodup
    ∧ mkEngine [a1, a2] = [a2] := by
  constructor
  · unfold selectSegments
    have hsub : List.Sublist
        (((mkEngine registry).filter
          (fun a => chunkMatches a tefillaType dc)).map (fun a => a.name))
        ((mkEngine registry).map (fun x => x.name)) :=
      List.Sublist.map _ (List.filter_sublist _)
    exact (mkEngine_names_nodup registry).sublist hsub
  · simp [mkEngine, dictInsert, h]

/-- Concrete instantiation of C10's theorem: two annotations named
`"x"` with different conditions; only the second is retained. -/
theorem engine_keyed_by_name_nodup_last_retained_witness :
    ((⟨"x", ["shacharis"], [("day_of_week", CValue.vs "weekday")]⟩ :
        ChunkAnnot).name
      = (⟨"x", ["shacharis"], [("day_of_week", CValue.vs "shabbat")]⟩ :
        ChunkAnnot).name)
    ∧ ((selectSegments "shacharis"
          (getDateConditions ⟨2024, 1, 15⟩ "shacharis") musafRegistry).Nodup
        ∧ mkEngine
            [⟨"x", ["shacharis"], [("day_of_week", CValue.vs "weekday")]⟩,
             ⟨"x", ["shacharis"], [("day_of_week", CValue.vs "shabbat")]⟩]
          = [⟨"x", ["shacharis"], [("day_of_week", CValue.vs "shabbat")]⟩]) :=
  ⟨rfl, engine_keyed_by_name_nodup_last_retained musafRegistry "shacharis"
    (getDateConditions ⟨2024, 1, 15⟩ "shacharis")
    ⟨"x", ["shacharis"], [("day_of_week", CValue.vs "weekday")]⟩
    ⟨"x", ["shacharis"], [("day_of_week", CValue.vs "shabbat")]⟩ rfl⟩

end Siddur
